import Mathlib

/-!
Verification of the forecast-and-recommend pipeline of
`final_comprehensive_app.py`: price-history loading, linear-trend
forecasting, option screening and batch ranking, embedded over exact
rationals.  External collaborators (the market-data download and the
option-chain provider) are abstracted as function parameters; dates are
abstract strings.
-/

/-- Embedding of the fixed 50-ticker batch list `top_50_stocks`. -/
def top_50_stocks : List String :=
  ["AAPL", "MSFT", "GOOGL", "AMZN", "TSLA", "META", "NVDA", "BRK.B", "V", "JPM",
   "JNJ", "WMT", "PG", "UNH", "HD", "MA", "DIS", "PYPL", "BAC", "NFLX",
   "ADBE", "KO", "PEP", "NKE", "T", "PFE", "MRK", "INTC", "XOM", "CSCO",
   "ORCL", "CMCSA", "ABT", "CRM", "COST", "VZ", "ACN", "AMD", "UPS", "QCOM",
   "TXN", "AVGO", "LIN", "LOW", "HON", "AMGN", "CVX", "MDT", "PM", "NEE"]

/-- Embedding of the slice of the pandas frame the pipeline reads and
writes: the `Close` column, and the `Days` column that
`predict_price_movement` adds on line 45 (absent as fetched). -/
structure DataFrame where
  close : List ℚ
  days : Option (List ℕ)
deriving DecidableEq

/-- Embedding of `ticker.replace(".", "-")` from `fetch_stock_data`
(line 30); the pattern is the single character `.`, so Python substring
replacement is replacement of each `.` character by `-`. -/
def adjust_ticker (ticker : String) : String :=
  String.mk (ticker.data.map (fun c => if c = '.' then '-' else c))

/-- Embedding of `fetch_stock_data` (lines 27-38): normalizes the ticker,
delegates to the market-data provider (`yf.download`, abstracted as the
`download` parameter), and returns `none` on an empty result (the
`stock_data.empty` check). -/
def fetch_stock_data (download : String → String → String → List ℚ)
    (ticker start_date end_date : String) : Option DataFrame :=
  if download (adjust_ticker ticker) start_date end_date = [] then none
  else some { close := download (adjust_ticker ticker) start_date end_date, days := none }

/-- Sample mean of the 0-based day indices `0, ..., n-1` used as the
single regression feature (`data['Days'] = np.arange(len(data))`). -/
def daysMean (n : ℕ) : ℚ :=
  (∑ i ∈ Finset.range n, (i : ℚ)) / n

/-- Sample mean of the regression target (`data['Close'].values`). -/
def closeMean (ys : List ℚ) : ℚ :=
  (∑ i ∈ Finset.range ys.length, ys.getD i 0) / ys.length

/-- Centered sum of squares of the day indices. -/
def sxx (n : ℕ) : ℚ :=
  ∑ i ∈ Finset.range n, ((i : ℚ) - daysMean n) ^ 2

/-- Centered cross sum of day index and close. -/
def sxy (ys : List ℚ) : ℚ :=
  ∑ i ∈ Finset.range ys.length, ((i : ℚ) - daysMean ys.length) * (ys.getD i 0 - closeMean ys)

/-- Slope of the least-squares line fitted by `LinearRegression.fit`
with the single feature `Days` (ordinary least squares). -/
def olsSlope (ys : List ℚ) : ℚ :=
  sxy ys / sxx ys.length

/-- Intercept of the least-squares line fitted by `LinearRegression.fit`. -/
def olsIntercept (ys : List ℚ) : ℚ :=
  closeMean ys - olsSlope ys * daysMean ys.length

/-- Embedding of `predict_price_movement` (lines 41-55).  Returns the
state of the input frame after the call (line 45 adds the `Days` column
before fitting) together with the `(current_price, predicted_price)`
pair, where `none` stands for the Python `(None, None)`.  `model.predict`
evaluates the fitted line at `np.arange(len(data), len(data)+days)`;
`predictions[-1]` is its value at index `len(data)+days-1`, and raises on
an empty array (`days = 0`), which the `except` turns into `(None, None)`
after the mutation of line 45 has already happened. -/
def predict_price_movement (data : Option DataFrame) (days : ℕ) :
    Option DataFrame × Option (ℚ × ℚ) :=
  match data with
  | none => (none, none)
  | some d =>
    if d.close.length < 2 then (some d, none)
    else if days = 0 then
      (some { d with days := some (List.range d.close.length) }, none)
    else
      (some { d with days := some (List.range d.close.length) },
       some (d.close.getD (d.close.length - 1) 0,
             olsIntercept d.close + olsSlope d.close * ((d.close.length : ℚ) + days - 1)))

/-- The three recommendation categories of `analyze_single_stock`. -/
inductive Recommendation where
  | buyCalls
  | buyPuts
  | hold
deriving DecidableEq

/-- Embedding of the decision rule of `analyze_single_stock`
(lines 79-88): strict threshold comparisons at plus and minus 5%. -/
def recommendation (current_price predicted_price : ℚ) : Recommendation :=
  if predicted_price > current_price * 1.05 then Recommendation.buyCalls
  else if predicted_price < current_price * 0.95 then Recommendation.buyPuts
  else Recommendation.hold

/-- Embedding of an option contract row; only the fields the screener
reads are kept. -/
structure OptionContract where
  strike : ℚ
  bid : ℚ
  ask : ℚ
deriving DecidableEq

/-- Embedding of the strike filter of `analyze_single_stock`
(lines 71-72), applied to the call chain and the put chain alike. -/
def relevant_options (chain : List OptionContract) (current_price : ℚ) :
    List OptionContract :=
  chain.filter (fun o =>
    decide (o.strike ≥ current_price * 0.95) && decide (o.strike ≤ current_price * 1.05))

/-- One entry of the `results` list of `find_top_recommendations`
(line 108): ticker, current price, predicted price and movement. -/
structure RankedEntry where
  ticker : String
  currentPrice : ℚ
  predictedPrice : ℚ
  movement : ℚ
deriving DecidableEq

/-- Embedding of the loop body of `find_top_recommendations`
(lines 97-108): fetch, forecast, skip on failure, otherwise record
`(ticker, current_price, predicted_price, movement)` with
`movement = abs(predicted_price - current_price)`. -/
def ticker_entry (fetch : String → Option DataFrame) (ticker : String) :
    Option RankedEntry :=
  match fetch ticker with
  | none => none
  | some stock_data =>
    match (predict_price_movement (some stock_data) 7).2 with
    | none => none
    | some (current_price, predicted_price) =>
      some { ticker := ticker, currentPrice := current_price,
             predictedPrice := predicted_price,
             movement := |predicted_price - current_price| }

/-- The `results` list after the loop of `find_top_recommendations`.
The line-113 validity filter (`len(entry) == 4` and all prices numeric)
keeps every entry of this shape, so `valid_results` equals `results`. -/
def batch_results (tickers : List String) (fetch : String → Option DataFrame) :
    List RankedEntry :=
  tickers.filterMap (ticker_entry fetch)

/-- Boolean comparison used to embed
`sorted(valid_results, key=lambda x: x[3], reverse=True)`:
movement descending, stable on ties. -/
def movement_desc (a b : RankedEntry) : Bool :=
  decide (b.movement ≤ a.movement)

/-- Embedding of the stable descending sort of line 118. -/
def sort_by_movement (results : List RankedEntry) : List RankedEntry :=
  results.mergeSort movement_desc

/-- Embedding of `find_top_recommendations` over an arbitrary ticker list
(the source loops over the fixed `top_50_stocks`).  `none` is the early
return with the warning "No valid recommendations could be generated."
(lines 114-116); `some l` carries the ranked top-5 list of line 118. -/
def top_recommendations (tickers : List String)
    (fetch : String → Option DataFrame) : Option (List RankedEntry) :=
  if batch_results tickers fetch = [] then none
  else some ((sort_by_movement (batch_results tickers fetch)).take 5)

/-- Embedding of the screener step run per ranked entry in the final
loop (lines 120-124): the recommendation computed from the entry's
current and predicted prices. -/
def screen_entry (e : RankedEntry) : Recommendation :=
  recommendation e.currentPrice e.predictedPrice

/-- The screener invocations of the final loop of
`find_top_recommendations` (lines 120-124): one per selected ranked
entry, in ranked order. -/
def batch_screened (tickers : List String) (fetch : String → Option DataFrame) :
    Option (List (RankedEntry × Recommendation)) :=
  (top_recommendations tickers fetch).map
    (fun l => l.map (fun e => (e, screen_entry e)))

/-- Embedding of `find_top_recommendations` (lines 93-126) proper: batch
mode over the fixed 50-ticker list; every fetch uses the fixed start date
`2022-01-01` and end date `today` (line 99). -/
def find_top_recommendations (download : String → String → String → List ℚ)
    (today : String) : Option (List RankedEntry) :=
  top_recommendations top_50_stocks
    (fun ticker => fetch_stock_data download ticker "2022-01-01" today)

/-- Output of the "Analyze Stock" button of the Stock Analysis tab. -/
inductive AnalyzeOutput where
  | batch : Option (List RankedEntry) → AnalyzeOutput
  | single : Option (ℚ × ℚ) → AnalyzeOutput
deriving DecidableEq

/-- Embedding of the "Analyze Stock" button handler (lines 140-155):
selecting "Analyze All" triggers the batch orchestrator (which does not
receive the UI date inputs), any other selection fetches with the UI
dates and forecasts the selected ticker. -/
def analyze_stock_button (download : String → String → String → List ℚ)
    (today selected_stock start_date end_date : String) : AnalyzeOutput :=
  if selected_stock = "Analyze All" then
    AnalyzeOutput.batch (find_top_recommendations download today)
  else
    match fetch_stock_data download selected_stock start_date end_date with
    | none => AnalyzeOutput.single none
    | some stock_data => AnalyzeOutput.single (predict_price_movement (some stock_data) 7).2

/-- Synthetic perfectly linear close series `close[i] = a*i + b`. -/
def linear_series (a b : ℚ) (n : ℕ) : List ℚ :=
  (List.range n).map (fun i : ℕ => a * (i : ℚ) + b)

/-- Fixture: a provider that returns a fixed two-bar series for every
ticker. -/
def sample_fetch : String → Option DataFrame :=
  fun _ => some { close := [100, 101], days := none }

/-- Fixture: a download source that returns a fixed two-bar close series
for every request. -/
def sample_download : String → String → String → List ℚ :=
  fun _ _ _ => [100, 101]

/-- Fixture: a download source that agrees with `sample_download` on
requests whose start date is `2022-01-01` and differs elsewhere. -/
def sample_download_alt : String → String → String → List ℚ :=
  fun _ s _ => if s = "2022-01-01" then [100, 101] else [1, 2, 3]

/-- The buy-calls branch is taken exactly when the predicted price
strictly exceeds 105% of the current price. -/
theorem recommendation_buyCalls_iff (c p : ℚ) :
    recommendation c p = Recommendation.buyCalls ↔ p > c * 1.05 := by
  unfold recommendation
  split_ifs with h1 h2 <;> simp_all

/-- For a nonnegative current price, the buy-puts branch is taken exactly
when the predicted price is strictly below 95% of the current price. -/
theorem recommendation_buyPuts_iff (c p : ℚ) (h : 0 ≤ c) :
    recommendation c p = Recommendation.buyPuts ↔ p < c * 0.95 := by
  have hb : c * 0.95 ≤ c * 1.05 := by nlinarith
  unfold recommendation
  split_ifs with h1 h2 <;> simp_all
  linarith

/-- For a nonnegative current price, the hold branch is taken exactly on
the closed band between 95% and 105% of the current price. -/
theorem recommendation_hold_iff (c p : ℚ) (h : 0 ≤ c) :
    recommendation c p = Recommendation.hold ↔ c * 0.95 ≤ p ∧ p ≤ c * 1.05 := by
  have hb : c * 0.95 ≤ c * 1.05 := by nlinarith
  unfold recommendation
  split_ifs with h1 h2 <;> simp_all

/-- At exactly the upper 5% boundary the category is hold. -/
theorem recommendation_boundary_hi (c : ℚ) (h : 0 ≤ c) :
    recommendation c (c * 1.05) = Recommendation.hold := by
  have hb : c * 0.95 ≤ c * 1.05 := by nlinarith
  unfold recommendation
  rw [if_neg (lt_irrefl _), if_neg (not_lt.mpr hb)]

/-- At exactly the lower 5% boundary the category is hold. -/
theorem recommendation_boundary_lo (c : ℚ) (h : 0 ≤ c) :
    recommendation c (c * 0.95) = Recommendation.hold := by
  have hb : c * 0.95 ≤ c * 1.05 := by nlinarith
  unfold recommendation
  rw [if_neg (not_lt.mpr hb), if_neg (lt_irrefl _)]

/-- C1: for every nonnegative currentPrice and every predictedPrice, the
recommendation category is BUY_CALLS iff predictedPrice > currentPrice *
1.05, BUY_PUTS iff predictedPrice < currentPrice * 0.95, HOLD otherwise,
and at the exact boundary values currentPrice * 1.05 and currentPrice *
0.95 the category is HOLD (the comparisons are strict). -/
theorem recommendation_decision_rule (c p : ℚ) (h : 0 ≤ c) :
    (recommendation c p = Recommendation.buyCalls ↔ p > c * 1.05) ∧
    (recommendation c p = Recommendation.buyPuts ↔ p < c * 0.95) ∧
    (recommendation c p = Recommendation.hold ↔ c * 0.95 ≤ p ∧ p ≤ c * 1.05) ∧
    recommendation c (c * 1.05) = Recommendation.hold ∧
    recommendation c (c * 0.95) = Recommendation.hold :=
  ⟨recommendation_buyCalls_iff c p, recommendation_buyPuts_iff c p h,
   recommendation_hold_iff c p h, recommendation_boundary_hi c h,
   recommendation_boundary_lo c h⟩

/-- Witness for C1 at currentPrice 100 and predictedPrice 111. -/
theorem recommendation_decision_rule_witness :
    (0 : ℚ) ≤ 100 ∧
    ((recommendation 100 111 = Recommendation.buyCalls ↔ (111 : ℚ) > 100 * 1.05) ∧
     (recommendation 100 111 = Recommendation.buyPuts ↔ (111 : ℚ) < 100 * 0.95) ∧
     (recommendation 100 111 = Recommendation.hold ↔
       (100 : ℚ) * 0.95 ≤ 111 ∧ (111 : ℚ) ≤ 100 * 1.05) ∧
     recommendation 100 (100 * 1.05) = Recommendation.hold ∧
     recommendation 100 (100 * 0.95) = Recommendation.hold) :=
  ⟨by norm_num, recommendation_decision_rule 100 111 (by norm_num)⟩

/-- The synthetic linear series has length `n`. -/
theorem linear_series_length (a b : ℚ) (n : ℕ) : (linear_series a b n).length = n := by
  simp [linear_series]

/-- Entry `i` of the synthetic linear series is `a*i + b`. -/
theorem linear_series_getD (a b : ℚ) (n i : ℕ) (hi : i < n) :
    (linear_series a b n).getD i 0 = a * i + b := by
  simp [linear_series, List.getD_eq_getElem?_getD, List.getElem?_range hi]

/-- Mean close of a linear series lies on the fitted line at the mean day
index. -/
theorem closeMean_linear (a b : ℚ) (n : ℕ) (hn : 1 ≤ n) :
    closeMean (linear_series a b n) = a * daysMean n + b := by
  have hn0 : (n : ℚ) ≠ 0 := by positivity
  unfold closeMean daysMean
  rw [linear_series_length]
  rw [Finset.sum_congr rfl (fun i hi => linear_series_getD a b n i (Finset.mem_range.mp hi))]
  rw [Finset.sum_add_distrib, ← Finset.mul_sum, Finset.sum_const, Finset.card_range]
  field_simp
  ring

/-- On a linear series the centered cross sum is the slope times the
centered sum of squares. -/
theorem sxy_linear (a b : ℚ) (n : ℕ) (hn : 1 ≤ n) :
    sxy (linear_series a b n) = a * sxx n := by
  unfold sxy sxx
  rw [linear_series_length, Finset.mul_sum]
  refine Finset.sum_congr rfl (fun i hi => ?_)
  rw [linear_series_getD a b n i (Finset.mem_range.mp hi), closeMean_linear a b n hn]
  ring

/-- With at least two distinct day indices the centered sum of squares is
nonzero, so the least-squares fit is well defined. -/
theorem sxx_ne_zero (n : ℕ) (hn : 2 ≤ n) : sxx n ≠ 0 := by
  intro h0
  unfold sxx at h0
  have hnn : ∀ i ∈ Finset.range n, (0 : ℚ) ≤ ((i : ℚ) - daysMean n) ^ 2 :=
    fun i _ => sq_nonneg _
  have hall := (Finset.sum_eq_zero_iff_of_nonneg hnn).mp h0
  have h0' := hall 0 (Finset.mem_range.mpr (by omega))
  have h1' := hall 1 (Finset.mem_range.mpr (by omega))
  have e0 : ((0 : ℕ) : ℚ) - daysMean n = 0 := sq_eq_zero_iff.mp h0'
  have e1 : ((1 : ℕ) : ℚ) - daysMean n = 0 := sq_eq_zero_iff.mp h1'
  push_cast at e0 e1
  linarith

/-- Ordinary least squares on a perfectly linear series recovers the
slope exactly. -/
theorem olsSlope_linear (a b : ℚ) (n : ℕ) (hn : 2 ≤ n) :
    olsSlope (linear_series a b n) = a := by
  unfold olsSlope
  rw [linear_series_length, sxy_linear a b n (by omega)]
  exact mul_div_cancel_right₀ a (sxx_ne_zero n hn)

/-- Ordinary least squares on a perfectly linear series recovers the
intercept exactly. -/
theorem olsIntercept_linear (a b : ℚ) (n : ℕ) (hn : 2 ≤ n) :
    olsIntercept (linear_series a b n) = b := by
  unfold olsIntercept
  rw [linear_series_length, olsSlope_linear a b n hn, closeMean_linear a b n (by omega)]
  ring

/-- C2: for every price series whose closes are exactly linear in the
0-based bar index, `close[i] = a*i + b`, with length `n ≥ 2`, the
forecaster with horizon `h ≥ 1` returns exactly
`predictedPrice = a*(n-1+h) + b`: the extrapolation point is bar index
`len(series) - 1 + horizonDays`.  (The source computes with floats; over
the exact rationals of this embedding the equality is exact.) -/
theorem forecast_linear_series_eq (a b : ℚ) (n h : ℕ) (hn : 2 ≤ n) (hh : 1 ≤ h) :
    (predict_price_movement (some { close := linear_series a b n, days := none }) h).2 =
      some (a * ((n : ℚ) - 1) + b, a * ((n : ℚ) - 1 + h) + b) := by
  have hlen : (linear_series a b n).length = n := linear_series_length a b n
  have hg : ¬ (linear_series a b n).length < 2 := by rw [hlen]; omega
  have hd : ¬ h = 0 := by omega
  have hgetD : (linear_series a b n).getD ((linear_series a b n).length - 1) 0 =
      a * ((n : ℚ) - 1) + b := by
    rw [hlen, linear_series_getD a b n (n - 1) (by omega), Nat.cast_sub (by omega), Nat.cast_one]
  simp only [predict_price_movement]
  rw [if_neg hg, if_neg hd]
  dsimp only
  rw [hgetD, olsSlope_linear a b n hn, olsIntercept_linear a b n hn, hlen]
  simp only [Option.some.injEq, Prod.mk.injEq, true_and]
  ring

/-- Witness for C2: the spec scenario, 5 bars 100..104 (slope 1,
intercept 100), horizon 7, predicted price 1*(5-1+7)+100 = 111. -/
theorem forecast_linear_series_witness :
    2 ≤ 5 ∧ 1 ≤ 7 ∧
    (predict_price_movement (some { close := linear_series 1 100 5, days := none }) 7).2 =
      some (1 * (((5 : ℕ) : ℚ) - 1) + 100, 1 * (((5 : ℕ) : ℚ) - 1 + ((7 : ℕ) : ℚ)) + 100) :=
  ⟨by decide, by decide, forecast_linear_series_eq 1 100 5 7 (by decide) (by decide)⟩

/-- C3: for every price series with at least 2 bars (and a positive
horizon, as in the source where the horizon is always 7), the forecaster
returns a non-null result whose currentPrice is the close of the last
bar of the series. -/
theorem forecast_current_last (d : DataFrame) (k : ℕ)
    (hlen : 2 ≤ d.close.length) (hk : 1 ≤ k) :
    ∃ c p, (predict_price_movement (some d) k).2 = some (c, p) ∧
      d.close.getLast? = some c := by
  have hg : ¬ d.close.length < 2 := by omega
  have hd : ¬ k = 0 := by omega
  have hlt : d.close.length - 1 < d.close.length := by omega
  refine ⟨d.close.getD (d.close.length - 1) 0,
    olsIntercept d.close + olsSlope d.close * ((d.close.length : ℚ) + k - 1), ?_, ?_⟩
  · simp only [predict_price_movement]
    rw [if_neg hg, if_neg hd]
  · rw [List.getLast?_eq_getElem?, List.getElem?_eq_getElem hlt,
      List.getD_eq_getElem?_getD, List.getElem?_eq_getElem hlt]
    rfl

/-- Witness for C3 on the two-bar series [100, 101] with horizon 7. -/
theorem forecast_current_last_witness :
    2 ≤ ({ close := [100, 101], days := none } : DataFrame).close.length ∧ 1 ≤ 7 ∧
    ∃ c p,
      (predict_price_movement (some ({ close := [100, 101], days := none } : DataFrame)) 7).2 =
        some (c, p) ∧
      ({ close := [100, 101], days := none } : DataFrame).close.getLast? = some c :=
  ⟨by decide, by decide,
   forecast_current_last { close := [100, 101], days := none } 7 (by decide) (by decide)⟩

/-- C4: for every price series of length 0 or 1 the forecaster returns
the Python pair (None, None) and leaves the frame untouched: no forecast
values are produced. -/
theorem forecast_short_null (d : DataFrame) (k : ℕ) (hlen : d.close.length < 2) :
    predict_price_movement (some d) k = (some d, none) := by
  simp [predict_price_movement, hlen]

/-- Witness for C4 on the one-bar series [100]. -/
theorem forecast_short_null_witness :
    ({ close := [100], days := none } : DataFrame).close.length < 2 ∧
    predict_price_movement (some ({ close := [100], days := none } : DataFrame)) 7 =
      (some { close := [100], days := none }, none) :=
  ⟨by decide, forecast_short_null { close := [100], days := none } 7 (by decide)⟩

/-- C5: for every option chain and every currentPrice, a contract is in
the filtered result exactly when it is in the chain and its strike lies
in the inclusive range [0.95*currentPrice, 1.05*currentPrice]; in
particular no contract with strike outside that range appears. -/
theorem relevant_options_mem_iff (chain : List OptionContract) (current_price : ℚ)
    (o : OptionContract) :
    o ∈ relevant_options chain current_price ↔
      o ∈ chain ∧ 0.95 * current_price ≤ o.strike ∧ o.strike ≤ 1.05 * current_price := by
  simp [relevant_options, List.mem_filter, and_assoc, mul_comm]

/-- Descending movement comparison is transitive. -/
theorem movement_desc_trans : ∀ a b c : RankedEntry,
    movement_desc a b = true → movement_desc b c = true → movement_desc a c = true := by
  intro a b c hab hbc
  simp only [movement_desc, decide_eq_true_eq] at *
  exact le_trans hbc hab

/-- Descending movement comparison is total. -/
theorem movement_desc_total : ∀ a b : RankedEntry,
    (movement_desc a b || movement_desc b a) = true := by
  intro a b
  simp only [movement_desc, Bool.or_eq_true, decide_eq_true_eq]
  exact le_total b.movement a.movement

/-- C6: for every universe of tickers where some subset produces valid
forecasts, the batch orchestrator returns exactly min(5, validCount)
entries, sorted by movement descending, every returned entry is one of
the valid forecast results, and the screener is run exactly once per
selected entry in ranked order. -/
theorem top_recommendations_ranked (tickers : List String)
    (fetch : String → Option DataFrame)
    (hne : batch_results tickers fetch ≠ []) :
    ∃ l, top_recommendations tickers fetch = some l ∧
      l.length = min 5 (batch_results tickers fetch).length ∧
      l.Pairwise (fun a b => b.movement ≤ a.movement) ∧
      (∀ e ∈ l, e ∈ batch_results tickers fetch) ∧
      batch_screened tickers fetch = some (l.map (fun e => (e, screen_entry e))) := by
  refine ⟨(sort_by_movement (batch_results tickers fetch)).take 5, ?_, ?_, ?_, ?_, ?_⟩
  · unfold top_recommendations
    rw [if_neg hne]
  · rw [List.length_take, sort_by_movement, List.length_mergeSort]
  · have hs := List.sorted_mergeSort movement_desc_trans movement_desc_total
      (batch_results tickers fetch)
    have hp : (sort_by_movement (batch_results tickers fetch)).Pairwise
        (fun a b => b.movement ≤ a.movement) := by
      refine hs.imp ?_
      intro a b hab
      simpa [movement_desc] using hab
    exact hp.sublist (List.take_sublist 5 _)
  · intro e he
    have h1 : e ∈ sort_by_movement (batch_results tickers fetch) :=
      (List.take_sublist 5 _).subset he
    exact (List.mergeSort_perm (batch_results tickers fetch) movement_desc).subset h1
  · unfold batch_screened top_recommendations
    rw [if_neg hne]
    rfl

/-- Witness for C6 on a one-ticker universe with a constant provider. -/
theorem top_recommendations_ranked_witness :
    batch_results ["AAPL"] sample_fetch ≠ [] ∧
    ∃ l, top_recommendations ["AAPL"] sample_fetch = some l ∧
      l.length = min 5 (batch_results ["AAPL"] sample_fetch).length ∧
      l.Pairwise (fun a b => b.movement ≤ a.movement) ∧
      (∀ e ∈ l, e ∈ batch_results ["AAPL"] sample_fetch) ∧
      batch_screened ["AAPL"] sample_fetch = some (l.map (fun e => (e, screen_entry e))) :=
  ⟨by decide, top_recommendations_ranked ["AAPL"] sample_fetch (by decide)⟩

/-- C7: when the universe is empty or every ticker fails to load or
forecast (zero valid forecasts), the batch orchestrator returns the
"no valid recommendations" signal (`none`) instead of a result list; the
embedding is a total function, so no exception is raised. -/
theorem top_recommendations_empty (tickers : List String)
    (fetch : String → Option DataFrame)
    (hall : ∀ t ∈ tickers, ticker_entry fetch t = none) :
    top_recommendations tickers fetch = none := by
  have hbe : batch_results tickers fetch = [] := by
    simp only [batch_results, List.filterMap_eq_nil_iff]
    exact hall
  unfold top_recommendations
  rw [if_pos hbe]

/-- Witness for C7: a universe whose single ticker always fails to
fetch. -/
theorem top_recommendations_empty_witness :
    (∀ t ∈ (["AAPL"] : List String), ticker_entry (fun _ => none) t = none) ∧
    top_recommendations ["AAPL"] (fun _ => none) = none :=
  ⟨by decide, top_recommendations_empty ["AAPL"] (fun _ => none) (by decide)⟩

/-- C8: the loader normalizes the symbol before delegating to the
market-data provider, replacing each literal "." character by "-":
"BRK.B" becomes "BRK-B", no "." survives normalization, and
`fetch_stock_data` queries the provider exactly at the normalized
symbol. -/
theorem fetch_normalizes :
    adjust_ticker "BRK.B" = "BRK-B" ∧
    (∀ ticker : String, ('.' ∈ (adjust_ticker ticker).data → False)) ∧
    (∀ download ticker start_date end_date,
      fetch_stock_data download ticker start_date end_date =
        (if download (adjust_ticker ticker) start_date end_date = [] then none
         else some { close := download (adjust_ticker ticker) start_date end_date,
                     days := none })) := by
  refine ⟨by decide, ?_, fun _ _ _ _ => rfl⟩
  intro ticker hmem
  simp only [adjust_ticker, List.mem_map] at hmem
  obtain ⟨c, _, hc⟩ := hmem
  by_cases h : c = '.' <;> simp [h] at hc

/-- Witness for C8 on the share-class tickers "BRK.B" and "A.B.C". -/
theorem fetch_normalizes_witness :
    adjust_ticker "BRK.B" = "BRK-B" ∧ ('.' ∈ (adjust_ticker "A.B.C").data → False) :=
  ⟨fetch_normalizes.1, fetch_normalizes.2.1 "A.B.C"⟩

/-- C9 counterexample: running the forecaster does not leave the input
series unchanged; on the two-bar series [100, 101] the frame after the
call differs from the frame passed in, because line 45 adds a `Days`
column to it before fitting. -/
theorem forecast_mutates_cx :
    (predict_price_movement (some { close := [100, 101], days := none }) 7).1 ≠
      some { close := [100, 101], days := none } := by
  decide

/-- C9 (amended): the forecaster modifies no existing values of the
series it is given, and its close column in particular is unchanged; but
whenever the series has at least 2 bars it does add a `Days` field
holding the 0-based bar indices to the frame (series with fewer than 2
bars are returned untouched). -/
theorem forecast_frame_update (d : DataFrame) (k : ℕ) :
    (predict_price_movement (some d) k).1 =
      some { close := d.close,
             days := if d.close.length < 2 then d.days
                     else some (List.range d.close.length) } := by
  rcases d with ⟨cl, dy⟩
  simp only [predict_price_movement]
  split_ifs with h1 h2 <;> rfl

/-- C10: in batch mode every loader call uses the fixed start date
`2022-01-01` and end date `today`, regardless of the UI date inputs: the
"Analyze All" button output is unchanged under any change of the UI
dates, and the batch result depends on the download source only through
its values at start `2022-01-01` and end `today`. -/
theorem batch_fixed_dates :
    (∀ download today s1 e1 s2 e2,
      analyze_stock_button download today "Analyze All" s1 e1 =
        analyze_stock_button download today "Analyze All" s2 e2) ∧
    (∀ d1 d2 today,
      (∀ t, d1 t "2022-01-01" today = d2 t "2022-01-01" today) →
      find_top_recommendations d1 today = find_top_recommendations d2 today) := by
  constructor
  · intro download today s1 e1 s2 e2
    rfl
  · intro d1 d2 today hagree
    unfold find_top_recommendations
    have hfe : (fun ticker => fetch_stock_data d1 ticker "2022-01-01" today) =
        (fun ticker => fetch_stock_data d2 ticker "2022-01-01" today) := by
      funext ticker
      unfold fetch_stock_data
      rw [hagree (adjust_ticker ticker)]
    rw [hfe]

/-- Witness for C10: two download sources that agree at start date
`2022-01-01` (and differ elsewhere) yield the same batch output, and the
UI dates do not change the "Analyze All" output. -/
theorem batch_fixed_dates_witness :
    (analyze_stock_button sample_download "2024-01-02" "Analyze All" "2023-01-01" "2023-06-01" =
      analyze_stock_button sample_download "2024-01-02" "Analyze All" "2022-05-05" "2024-01-01") ∧
    ((∀ t, sample_download t "2022-01-01" "2024-01-02" =
        sample_download_alt t "2022-01-01" "2024-01-02") ∧
     find_top_recommendations sample_download "2024-01-02" =
       find_top_recommendations sample_download_alt "2024-01-02") := by
  have h : ∀ t : String, sample_download t "2022-01-01" "2024-01-02" =
      sample_download_alt t "2022-01-01" "2024-01-02" := fun t => rfl
  exact ⟨batch_fixed_dates.1 sample_download "2024-01-02" "2023-01-01" "2023-06-01"
      "2022-05-05" "2024-01-01",
    h, batch_fixed_dates.2 sample_download sample_download_alt "2024-01-02" h⟩
